import Mathlib

/-!
Shallow embedding of rmpp-stabilizer (src/src/stabilizer.cpp), an input-event
smoothing layer: configuration derivation, the four smoothing filters, the
stroke history, and the read-interception loop that rewrites event batches.
C `double` arithmetic is idealised as real arithmetic; C integer casts of
nonnegative in-range values are modelled exactly.
-/

namespace Stabilizer

noncomputable section

/-- Truncation toward zero, the C cast `(int)x` applied to a `double`
(defined for all reals; the C program only applies it in range). -/
def cint (r : ℝ) : ℤ := if 0 ≤ r then ⌊r⌋ else ⌈r⌉

/-- MAX_HISTORY from stabilizer.cpp. -/
def MAX_HISTORY : ℕ := 64

/-- The `Algorithm` enum of stabilizer.cpp. -/
inductive Algorithm where
  | ALG_MOVING_AVG
  | ALG_GAUSSIAN_AVG
  | ALG_STRING_PULL
  | ALG_ONE_EURO
  | ALG_OFF
deriving DecidableEq

open Algorithm

/-- The `Config` struct with its member initialisers. -/
structure Config where
  algorithm : Algorithm := ALG_STRING_PULL
  strength : ℝ := 0.5
  pressure_smoothing : Bool := false
  tilt_smoothing : Bool := false
  moving_avg_window : ℤ := 8
  gaussian_sigma : ℝ := 30.0
  string_length : ℝ := 25.0
  string_finish : Bool := true
  one_euro_mincutoff : ℝ := 1.0
  one_euro_beta : ℝ := 0.007
  one_euro_dcutoff : ℝ := 1.0

/-- `derive_params`: recompute the algorithm tunables from `strength`. -/
def derive_params (c : Config) : Config :=
  let s := c.strength
  { c with
    moving_avg_window := 4 + cint (s * 28),
    gaussian_sigma := 50.0 + s * 450.0,
    string_length := 100.0 + s * 900.0,
    one_euro_mincutoff := 1.5 - s * 1.3,
    one_euro_beta := 0.001 + s * 0.01 }

/-- The `Point` struct: one history sample. -/
structure Point where
  x : ℝ := 0
  y : ℝ := 0
  pressure : ℝ := 0
  tilt_x : ℝ := 0
  tilt_y : ℝ := 0
  distance : ℝ := 0

/-- The `FilterState` struct. The C fixed array `history[MAX_HISTORY]` is
modelled as a total map from index to `Point`; all accesses in the source are
reduced modulo `MAX_HISTORY` exactly as the C index arithmetic does. -/
structure FilterState where
  history : ℕ → Point
  hist_count : ℕ
  hist_head : ℕ
  string_x : ℝ
  string_y : ℝ
  string_init : Bool
  oe_x : ℝ
  oe_y : ℝ
  oe_dx : ℝ
  oe_dy : ℝ
  oe_last_time : ℝ
  oe_init : Bool
  raw_x : ℤ
  raw_y : ℤ
  raw_pressure : ℤ
  raw_tilt_x : ℤ
  raw_tilt_y : ℤ
  has_x : Bool
  has_y : Bool
  prev_x : ℝ
  prev_y : ℝ
  prev_init : Bool

/-- The zero-initialised global `g_state`. -/
def initState : FilterState where
  history := fun _ => {}
  hist_count := 0
  hist_head := 0
  string_x := 0
  string_y := 0
  string_init := false
  oe_x := 0
  oe_y := 0
  oe_dx := 0
  oe_dy := 0
  oe_last_time := 0
  oe_init := false
  raw_x := 0
  raw_y := 0
  raw_pressure := 0
  raw_tilt_x := 0
  raw_tilt_y := 0
  has_x := false
  has_y := false
  prev_x := 0
  prev_y := 0
  prev_init := false

/-- `history_push`: append a raw sample to the ring buffer, precomputing its
distance from the previous newest entry. -/
def history_push (s : FilterState) (x y pressure tilt_x tilt_y : ℝ) : FilterState :=
  let idx := (s.hist_head + 1) % MAX_HISTORY
  let dist : ℝ :=
    if 0 < s.hist_count then
      let prev := s.history s.hist_head
      Real.sqrt ((x - prev.x) * (x - prev.x) + (y - prev.y) * (y - prev.y))
    else 0
  { s with
    history := Function.update s.history idx
      { x := x, y := y, pressure := pressure, tilt_x := tilt_x, tilt_y := tilt_y,
        distance := dist },
    hist_head := idx,
    hist_count := if s.hist_count < MAX_HISTORY then s.hist_count + 1 else s.hist_count }

/-- `history_clear`: reset the stroke state (history, string anchor, adaptive
state, pending-axis flags). -/
def history_clear (s : FilterState) : FilterState :=
  { s with hist_count := 0, hist_head := 0, string_init := false, oe_init := false,
           prev_init := false, has_x := false, has_y := false }

/-- The accumulation loop of `gaussian_smooth`: walk the history backward from
`idx`, `rem` entries remaining, `i` entries already taken, accumulating
cumulative distance and the weighted sums, with the source's early break when
a weight falls below 0.1% of the running weight sum. Returns
(sum_x, sum_y, sum_p, sum_w). -/
def gaussLoop (s : FilterState) (gauss_norm sigma2 : ℝ) :
    ℕ → ℕ → ℕ → ℝ → ℝ → ℝ → ℝ → ℝ → ℝ × ℝ × ℝ × ℝ
  | _idx, _i, 0, _cum, sx, sy, sp, sw => (sx, sy, sp, sw)
  | idx, i, rem + 1, cum, sx, sy, sp, sw =>
    let p := s.history idx
    let cum1 := cum + p.distance
    let w := gauss_norm * Real.exp (-(cum1 * cum1) / (2 * sigma2))
    if 0 < i ∧ 0 < sw ∧ w / sw < 0.001 then (sx, sy, sp, sw)
    else gaussLoop s gauss_norm sigma2 ((idx + (MAX_HISTORY - 1)) % MAX_HISTORY)
      (i + 1) rem cum1 (sx + w * p.x) (sy + w * p.y) (sp + w * p.pressure) (sw + w)

/-- `gaussian_smooth`: distance-weighted averaging over the history. -/
def gaussian_smooth (cfg : Config) (s : FilterState) (raw_x raw_y raw_p : ℝ) :
    ℝ × ℝ × ℝ :=
  let sigma := cfg.gaussian_sigma
  if sigma ≤ 0 ∨ s.hist_count < 2 then (raw_x, raw_y, raw_p)
  else
    let sigma2 := sigma * sigma
    let gauss_norm := 1 / (Real.sqrt (2 * Real.pi) * sigma)
    let r := gaussLoop s gauss_norm sigma2 s.hist_head 0 s.hist_count 0 0 0 0 0
    if 0 < r.2.2.2 then
      (r.1 / r.2.2.2, r.2.1 / r.2.2.2,
       if cfg.pressure_smoothing then r.2.2.1 / r.2.2.2 else raw_p)
    else (raw_x, raw_y, raw_p)

/-- The anchor seeding at the top of `string_pull_filter`: the first sample of
a stroke initialises the anchor to the raw position. -/
def string_seed (s : FilterState) (raw_x raw_y : ℝ) : FilterState :=
  if s.string_init then s
  else { s with string_x := raw_x, string_y := raw_y, string_init := true }

/-- `string_pull_filter`: pull the anchor toward the pen by the excess of the
anchor-to-pen distance over the string length; output the anchor. -/
def string_pull_filter (cfg : Config) (s : FilterState) (raw_x raw_y : ℝ) :
    (ℝ × ℝ) × FilterState :=
  let L := cfg.string_length
  let s0 := string_seed s raw_x raw_y
  let dx := raw_x - s0.string_x
  let dy := raw_y - s0.string_y
  let dist := Real.sqrt (dx * dx + dy * dy)
  let s1 :=
    if L < dist then
      { s0 with string_x := s0.string_x + dx * ((dist - L) / dist),
                string_y := s0.string_y + dy * ((dist - L) / dist) }
    else s0
  ((s1.string_x, s1.string_y), s1)

/-- `oe_alpha` of the 1-euro filter. -/
def oe_alpha (cutoff dt : ℝ) : ℝ :=
  let tau := 1 / (2 * Real.pi * cutoff)
  1 / (1 + tau / dt)

/-- `oe_lowpass` of the 1-euro filter. -/
def oe_lowpass (x prev a : ℝ) : ℝ := a * x + (1 - a) * prev

/-- `one_euro_filter`: speed-adaptive low-pass filter. -/
def one_euro_filter (cfg : Config) (s : FilterState) (raw_x raw_y timestamp : ℝ) :
    (ℝ × ℝ) × FilterState :=
  if s.oe_init = false then
    ((raw_x, raw_y),
     { s with oe_x := raw_x, oe_y := raw_y, oe_dx := 0, oe_dy := 0,
              oe_last_time := timestamp, oe_init := true })
  else
    let dt0 := timestamp - s.oe_last_time
    let dt := if dt0 ≤ 0 then 0.002 else dt0
    let ad := oe_alpha cfg.one_euro_dcutoff dt
    let ndx := oe_lowpass ((raw_x - s.oe_x) / dt) s.oe_dx ad
    let ndy := oe_lowpass ((raw_y - s.oe_y) / dt) s.oe_dy ad
    let speed := Real.sqrt (ndx * ndx + ndy * ndy)
    let cutoff := cfg.one_euro_mincutoff + cfg.one_euro_beta * speed
    let a := oe_alpha cutoff dt
    let nx := oe_lowpass raw_x s.oe_x a
    let ny := oe_lowpass raw_y s.oe_y a
    ((nx, ny),
     { s with oe_x := nx, oe_y := ny, oe_dx := ndx, oe_dy := ndy,
              oe_last_time := timestamp })

/-- The summation loop of `moving_avg_filter`: starting at index `idx`, sum
the x and y of the next `n` history entries walking backward. -/
def mavgSum (s : FilterState) : ℕ → ℕ → ℝ × ℝ
  | _idx, 0 => (0, 0)
  | idx, n + 1 =>
    let p := s.history idx
    let r := mavgSum s ((idx + (MAX_HISTORY - 1)) % MAX_HISTORY) n
    (p.x + r.1, p.y + r.2)

/-- `moving_avg_filter`: mean of the last `min(hist_count, window)` samples. -/
def moving_avg_filter (cfg : Config) (s : FilterState) (raw_x raw_y : ℝ) : ℝ × ℝ :=
  let window : ℤ := if cfg.moving_avg_window < 1 then 1 else cfg.moving_avg_window
  let n : ℕ := min s.hist_count window.toNat
  if n = 0 then (raw_x, raw_y)
  else
    let r := mavgSum s s.hist_head n
    (r.1 / (n : ℝ), r.2 / (n : ℝ))

/-- `apply_filter`: dispatch on the configured algorithm; pressure passes
through except under gaussian smoothing. Returns ((out_x, out_y, out_p),
updated state). -/
def apply_filter (cfg : Config) (s : FilterState) (raw_x raw_y raw_p timestamp : ℝ) :
    (ℝ × ℝ × ℝ) × FilterState :=
  match cfg.algorithm with
  | ALG_MOVING_AVG =>
    let r := moving_avg_filter cfg s raw_x raw_y
    ((r.1, r.2, raw_p), s)
  | ALG_GAUSSIAN_AVG =>
    ((gaussian_smooth cfg s raw_x raw_y raw_p), s)
  | ALG_STRING_PULL =>
    let r := string_pull_filter cfg s raw_x raw_y
    ((r.1.1, r.1.2, raw_p), r.2)
  | ALG_ONE_EURO =>
    let r := one_euro_filter cfg s raw_x raw_y timestamp
    ((r.1.1, r.1.2, raw_p), r.2)
  | ALG_OFF => ((raw_x, raw_y, raw_p), s)

/-- Linux input-event type codes used by the source. -/
def EV_SYN : ℕ := 0

/-- EV_KEY type code. -/
def EV_KEY : ℕ := 1

/-- EV_ABS type code. -/
def EV_ABS : ℕ := 3

/-- SYN_REPORT event code. -/
def SYN_REPORT : ℕ := 0

/-- ABS_X axis code. -/
def ABS_X : ℕ := 0

/-- ABS_Y axis code. -/
def ABS_Y : ℕ := 1

/-- ABS_PRESSURE axis code. -/
def ABS_PRESSURE : ℕ := 24

/-- ABS_TILT_X axis code. -/
def ABS_TILT_X : ℕ := 26

/-- ABS_TILT_Y axis code. -/
def ABS_TILT_Y : ℕ := 27

/-- BTN_TOOL_PEN key code (0x140). -/
def BTN_TOOL_PEN : ℕ := 320

/-- One `struct input_event` record: timestamp (seconds, microseconds),
type, code, value. -/
structure InputEvent where
  time_sec : ℤ
  time_usec : ℤ
  type : ℕ
  code : ℕ
  value : ℤ
deriving DecidableEq

/-- One record of the write-back pass: overwrite the value of an EV_ABS
X / Y / (PRESSURE when smoothing) record with the rounded filtered value,
`(int)(f + 0.5)` in the source. -/
def writeBackEvent (cfg : Config) (fx fy fp : ℝ) (e : InputEvent) : InputEvent :=
  if e.type = EV_ABS then
    if e.code = ABS_X then { e with value := cint (fx + 0.5) }
    else if e.code = ABS_Y then { e with value := cint (fy + 0.5) }
    else if e.code = ABS_PRESSURE ∧ cfg.pressure_smoothing = true then
      { e with value := cint (fp + 0.5) }
    else e
  else e

/-- The write-back loop at a SYN_REPORT at index `i`: the source iterates
`j = 0..i` touching index `k = i - j`, overwriting every matching record at
an index at most `i`; the records are modified independently, so this equals
mapping `writeBackEvent` over all indices `k ≤ i` (the list is traversed with
`k` the index of its head). -/
def writeBack (cfg : Config) (fx fy fp : ℝ) : ℕ → ℕ → List InputEvent → List InputEvent
  | _k, _i, [] => []
  | k, i, e :: es =>
    (if k ≤ i then writeBackEvent cfg fx fy fp e else e)
      :: writeBack cfg fx fy fp (k + 1) i es

/-- The first-pass accumulation of raw axis values into `g_state`. -/
def accumEvent (s : FilterState) (ev : InputEvent) : FilterState :=
  if ev.type = EV_ABS then
    if ev.code = ABS_X then { s with raw_x := ev.value, has_x := true }
    else if ev.code = ABS_Y then { s with raw_y := ev.value, has_y := true }
    else if ev.code = ABS_PRESSURE then { s with raw_pressure := ev.value }
    else if ev.code = ABS_TILT_X then { s with raw_tilt_x := ev.value }
    else if ev.code = ABS_TILT_Y then { s with raw_tilt_y := ev.value }
    else s
  else s

/-- One iteration of the event loop in the `read` hook, at index `i` of the
current buffer: accumulate the axis value; on SYN_REPORT with a pending
position axis push the sample, filter, and write back into the buffer up to
index `i`, then clear the pending flags; then the pen-lift checks
(pressure below 50, or BTN_TOOL_PEN release) reset the stroke state. -/
def stepEvent (cfg : Config) (buf : List InputEvent) (s : FilterState) (i : ℕ) :
    List InputEvent × FilterState :=
  match buf.get? i with
  | none => (buf, s)
  | some ev =>
    let s1 := accumEvent s ev
    let bs :=
      if ev.type = EV_SYN ∧ ev.code = SYN_REPORT then
        if s1.has_x = true ∨ s1.has_y = true then
          let rx : ℝ := (s1.raw_x : ℝ)
          let ry : ℝ := (s1.raw_y : ℝ)
          let rp : ℝ := (s1.raw_pressure : ℝ)
          let ts : ℝ := (ev.time_sec : ℝ) + (ev.time_usec : ℝ) / 1000000
          let s2 := history_push s1 rx ry rp (s1.raw_tilt_x : ℝ) (s1.raw_tilt_y : ℝ)
          let r := apply_filter cfg s2 rx ry rp ts
          (writeBack cfg r.1.1 r.1.2.1 r.1.2.2 0 i buf,
           { r.2 with has_x := false, has_y := false })
        else (buf, { s1 with has_x := false, has_y := false })
      else (buf, s1)
    let s3 := if ev.type = EV_ABS ∧ ev.code = ABS_PRESSURE ∧ ev.value < 50
              then history_clear bs.2 else bs.2
    let s4 := if ev.type = EV_KEY ∧ ev.code = BTN_TOOL_PEN ∧ ev.value = 0
              then history_clear s3 else s3
    (bs.1, s4)

/-- Run the event loop from index `i` with `fuel` iterations remaining. -/
def runAux (cfg : Config) : ℕ → ℕ → List InputEvent × FilterState →
    List InputEvent × FilterState
  | 0, _i, bs => bs
  | fuel + 1, i, bs => runAux cfg fuel (i + 1) (stepEvent cfg bs.1 bs.2 i)

/-- The whole event loop of `read` over the complete records of a batch. -/
def read_events (cfg : Config) (buf : List InputEvent) (s : FilterState) :
    List InputEvent × FilterState :=
  runAux cfg buf.length 0 (buf, s)

/-- sizeof(struct input_event) on the 64-bit target. -/
def evSize : ℕ := 24

/-- A read result: the `ret / evSize` complete records the loop iterates
over, and the trailing bytes of a ragged read beyond the last complete
record, which the source never touches. -/
structure EventBuffer where
  events : List InputEvent
  trail : List ℕ

/-- The `read` hook: pass the result through untouched when the read failed,
the descriptor is not the pen device, interception is inactive, or the
algorithm is off; otherwise run the event loop over the complete records.
The underlying read's return value is returned in every case. -/
def read_call (cfg : Config) (s : FilterState) (fd pen_fd : ℤ) (active : Bool)
    (ret : ℤ) (b : EventBuffer) : ℤ × EventBuffer × FilterState :=
  if ret ≤ 0 ∨ fd ≠ pen_fd ∨ active = false ∨ cfg.algorithm = ALG_OFF then (ret, b, s)
  else
    let r := read_events cfg b.events s
    (ret, ⟨r.1, b.trail⟩, r.2)

/-- One recognised `key=value` line of `load_config`. Lines the source's
`sscanf` pattern rejects never reach this point; `atof` on the strength value
string is abstracted as a parameter (string-to-double conversion is host
plumbing). Unknown keys and unrecognised algorithm names change nothing;
`strength` is clamped into [0, 1]. -/
def apply_line (atof : String → ℝ) (c : Config) (kv : String × String) : Config :=
  if kv.1 = "algorithm" then
    if kv.2 = "off" then { c with algorithm := ALG_OFF }
    else if kv.2 = "moving_avg" then { c with algorithm := ALG_MOVING_AVG }
    else if kv.2 = "gaussian" then { c with algorithm := ALG_GAUSSIAN_AVG }
    else if kv.2 = "string_pull" then { c with algorithm := ALG_STRING_PULL }
    else if kv.2 = "one_euro" then { c with algorithm := ALG_ONE_EURO }
    else c
  else if kv.1 = "strength" then
    let v0 := atof kv.2
    let v1 := if v0 < 0 then 0 else v0
    let v2 := if 1 < v1 then 1 else v1
    { c with strength := v2 }
  else if kv.1 = "pressure_smoothing" then
    { c with pressure_smoothing := kv.2 = "true" }
  else if kv.1 = "tilt_smoothing" then
    { c with tilt_smoothing := kv.2 = "true" }
  else c

/-- `load_config`: derive the tunables from the default strength first; with
no config file (`none`) stop there; otherwise fold the parsed lines over the
defaults and re-derive the tunables from the final values. -/
def load_config (atof : String → ℝ) (file : Option (List (String × String))) : Config :=
  let c := derive_params {}
  match file with
  | none => c
  | some lines => derive_params (lines.foldl (apply_line atof) c)

/-- Euclidean distance between two points, as the source computes distances. -/
def rawDist (ax ay bx by' : ℝ) : ℝ :=
  Real.sqrt ((bx - ax) * (bx - ax) + (by' - ay) * (by' - ay))

/-- Per-record shape relation of a rewritten batch against the original:
timestamp, type and code are identical, and the value may differ only on an
EV_ABS X / Y / (PRESSURE when smoothing is on) record. -/
def evShape (psm : Bool) (e e1 : InputEvent) : Prop :=
  e1.time_sec = e.time_sec ∧ e1.time_usec = e.time_usec ∧ e1.type = e.type
  ∧ e1.code = e.code
  ∧ (e1.value = e.value ∨ (e.type = EV_ABS ∧ (e.code = ABS_X ∨ e.code = ABS_Y
      ∨ (e.code = ABS_PRESSURE ∧ psm = true))))

/-- A moving-average configuration with the struct defaults otherwise. -/
def cfgMA : Config := { algorithm := ALG_MOVING_AVG }

/-- The moving-average scenario configuration: strength 0, tunables derived. -/
def cfgMA0 : Config := derive_params { algorithm := ALG_MOVING_AVG, strength := 0 }

/-- The string-pull scenario configuration: strength 0.5, tunables derived. -/
def cfgSP : Config := derive_params { algorithm := ALG_STRING_PULL, strength := 0.5 }

/-- A configuration with the algorithm off. -/
def cfgOff : Config := { algorithm := ALG_OFF }

/-- An ABS_X event record with the given value (timestamp zero). -/
def xEv (v : ℤ) : InputEvent := ⟨0, 0, EV_ABS, ABS_X, v⟩

/-- A SYN_REPORT record (timestamp zero). -/
def synEv : InputEvent := ⟨0, 0, EV_SYN, SYN_REPORT, 0⟩

/-- An ABS_PRESSURE event record with the given value (timestamp zero). -/
def pEv (v : ℤ) : InputEvent := ⟨0, 0, EV_ABS, ABS_PRESSURE, v⟩

/-- A small concrete read result used as a witness input. -/
def bufW : EventBuffer := ⟨[xEv 123], [7]⟩

/-- One sample of a stroke fed to the moving-average filter, as the read loop
does at a report boundary: push the raw point into history, then filter. -/
def mavgStep (cfg : Config) (s : FilterState) (x y : ℝ) : (ℝ × ℝ) × FilterState :=
  let s1 := history_push s x y 0 0 0
  (moving_avg_filter cfg s1 x y, s1)

/-- Feed a sequence of raw x samples (y fixed at 0) through `mavgStep`,
collecting the filtered outputs. -/
def mavgOutputs (cfg : Config) : List ℝ → FilterState → List (ℝ × ℝ)
  | [], _ => []
  | x :: xs, s =>
    let r := mavgStep cfg s x 0
    r.1 :: mavgOutputs cfg xs r.2

end

theorem sqrt_scale (dx dy c : ℝ) (hc : 0 ≤ c) :
    Real.sqrt ((dx * c) * (dx * c) + (dy * c) * (dy * c))
      = c * Real.sqrt (dx * dx + dy * dy) := by
  rw [show (dx * c) * (dx * c) + (dy * c) * (dy * c) = c ^ 2 * (dx * dx + dy * dy) by ring,
    Real.sqrt_mul (sq_nonneg c), Real.sqrt_sq hc]

theorem evShape_refl (psm : Bool) (e : InputEvent) : evShape psm e e :=
  ⟨rfl, rfl, rfl, rfl, Or.inl rfl⟩

theorem evShape_trans (psm : Bool) (a b c : InputEvent)
    (h1 : evShape psm a b) (h2 : evShape psm b c) : evShape psm a c := by
  obtain ⟨t1, u1, y1, c1, v1⟩ := h1
  obtain ⟨t2, u2, y2, c2, v2⟩ := h2
  refine ⟨t2.trans t1, u2.trans u1, y2.trans y1, c2.trans c1, ?_⟩
  rcases v2 with v2 | v2
  · rcases v1 with v1 | v1
    · exact Or.inl (v2.trans v1)
    · exact Or.inr v1
  · exact Or.inr (by rw [← y1, ← c1]; exact v2)

theorem writeBackEvent_shape (cfg : Config) (fx fy fp : ℝ) (e : InputEvent) :
    evShape cfg.pressure_smoothing e (writeBackEvent cfg fx fy fp e) := by
  rw [writeBackEvent]
  by_cases ht : e.type = EV_ABS
  · rw [if_pos ht]
    by_cases hx : e.code = ABS_X
    · rw [if_pos hx]
      exact ⟨rfl, rfl, rfl, rfl, Or.inr ⟨ht, Or.inl hx⟩⟩
    · rw [if_neg hx]
      by_cases hy : e.code = ABS_Y
      · rw [if_pos hy]
        exact ⟨rfl, rfl, rfl, rfl, Or.inr ⟨ht, Or.inr (Or.inl hy)⟩⟩
      · rw [if_neg hy]
        by_cases hp : e.code = ABS_PRESSURE ∧ cfg.pressure_smoothing = true
        · rw [if_pos hp]
          exact ⟨rfl, rfl, rfl, rfl, Or.inr ⟨ht, Or.inr (Or.inr hp)⟩⟩
        · rw [if_neg hp]
          exact evShape_refl _ _
  · rw [if_neg ht]
    exact evShape_refl _ _

theorem writeBack_shape (cfg : Config) (fx fy fp : ℝ) (k i : ℕ) (es : List InputEvent) :
    List.Forall₂ (evShape cfg.pressure_smoothing) es (writeBack cfg fx fy fp k i es) := by
  induction es generalizing k with
  | nil => exact List.Forall₂.nil
  | cons e es ih =>
    rw [writeBack]
    refine List.Forall₂.cons ?_ (ih (k + 1))
    by_cases h : k ≤ i
    · rw [if_pos h]; exact writeBackEvent_shape cfg fx fy fp e
    · rw [if_neg h]; exact evShape_refl _ _

theorem stepEvent_shape (cfg : Config) (buf : List InputEvent) (s : FilterState) (i : ℕ) :
    List.Forall₂ (evShape cfg.pressure_smoothing) buf (stepEvent cfg buf s i).1 := by
  rw [stepEvent]
  cases hb : buf.get? i with
  | none => exact List.forall₂_same.mpr fun e _ => evShape_refl _ e
  | some ev =>
    simp only
    by_cases hsyn : ev.type = EV_SYN ∧ ev.code = SYN_REPORT
    · rw [if_pos hsyn]
      by_cases hhx : (accumEvent s ev).has_x = true ∨ (accumEvent s ev).has_y = true
      · rw [if_pos hhx]
        exact writeBack_shape cfg _ _ _ 0 i buf
      · rw [if_neg hhx]
        exact List.forall₂_same.mpr fun e _ => evShape_refl _ e
    · rw [if_neg hsyn]
      exact List.forall₂_same.mpr fun e _ => evShape_refl _ e

theorem forall₂_evShape_trans (psm : Bool) {a b c : List InputEvent}
    (h1 : List.Forall₂ (evShape psm) a b) (h2 : List.Forall₂ (evShape psm) b c) :
    List.Forall₂ (evShape psm) a c := by
  induction h1 generalizing c with
  | nil => cases h2; exact List.Forall₂.nil
  | cons hab t ih =>
    cases h2 with
    | cons hbc t2 =>
      exact List.Forall₂.cons (evShape_trans _ _ _ _ hab hbc) (ih t2)

theorem runAux_shape (cfg : Config) (fuel i : ℕ) (bs : List InputEvent × FilterState) :
    List.Forall₂ (evShape cfg.pressure_smoothing) bs.1 (runAux cfg fuel i bs).1 := by
  induction fuel generalizing i bs with
  | zero => exact List.forall₂_same.mpr fun e _ => evShape_refl _ e
  | succ n ih =>
    rw [runAux]
    exact forall₂_evShape_trans _ (stepEvent_shape cfg bs.1 bs.2 i)
      (ih (i + 1) (stepEvent cfg bs.1 bs.2 i))

theorem derive_strength (c : Config) : (derive_params c).strength = c.strength := rfl

theorem apply_line_strength_bound (atof : String → ℝ) (c : Config) (kv : String × String)
    (h : 0 ≤ c.strength ∧ c.strength ≤ 1) :
    0 ≤ (apply_line atof c kv).strength ∧ (apply_line atof c kv).strength ≤ 1 := by
  rw [apply_line]
  by_cases h1 : kv.1 = "algorithm"
  · rw [if_pos h1]
    split_ifs <;> exact h
  · rw [if_neg h1]
    by_cases h2 : kv.1 = "strength"
    · rw [if_pos h2]
      dsimp only
      constructor
      · split_ifs <;> linarith
      · split_ifs <;> linarith
    · rw [if_neg h2]
      split_ifs <;> exact h

theorem foldl_strength_bound (atof : String → ℝ) (lines : List (String × String))
    (c : Config) (h : 0 ≤ c.strength ∧ c.strength ≤ 1) :
    0 ≤ (lines.foldl (apply_line atof) c).strength
    ∧ (lines.foldl (apply_line atof) c).strength ≤ 1 := by
  induction lines generalizing c with
  | nil => exact h
  | cons kv tl ih =>
    exact ih (apply_line atof c kv) (apply_line_strength_bound atof c kv h)

theorem load_config_strength_bound (atof : String → ℝ)
    (file : Option (List (String × String))) :
    0 ≤ (load_config atof file).strength ∧ (load_config atof file).strength ≤ 1 := by
  cases file with
  | none =>
    rw [load_config]
    norm_num [derive_params]
  | some lines =>
    rw [load_config]
    simp only [derive_strength]
    exact foldl_strength_bound atof lines _ (by norm_num [derive_params])

/-- C1: evaluation of the write-back loop at a concrete two-report batch.
The claim states the interceptor overwrites only the most recent occurrence
of each modified axis within the batch, so each report keeps its own filtered
values. The code's loop scans all the way back to index 0 with no per-axis
stop: in the batch [X=0, SYN, X=10, SYN] under a moving average, the first
report's X event (whose own filtered value is 0, as the one-report run shows)
ends up holding 5, the second report's filtered value. -/
theorem writeback_clobbers_earlier_report :
    (read_events cfgMA [xEv 0, synEv] initState).1 = [xEv 0, synEv]
    ∧ (read_events cfgMA [xEv 0, synEv, xEv 10, synEv] initState).1
      = [xEv 5, synEv, xEv 5, synEv] := by
  constructor
  · norm_num [read_events, runAux, stepEvent, accumEvent, history_push, history_clear,
      apply_filter, moving_avg_filter, mavgSum, writeBack, writeBackEvent, cint,
      initState, cfgMA, xEv, synEv, Function.update, EV_ABS, EV_SYN, EV_KEY,
      SYN_REPORT, ABS_X, ABS_Y, ABS_PRESSURE, ABS_TILT_X, ABS_TILT_Y, BTN_TOOL_PEN,
      MAX_HISTORY, List.get?]
  · norm_num [read_events, runAux, stepEvent, accumEvent, history_push, history_clear,
      apply_filter, moving_avg_filter, mavgSum, writeBack, writeBackEvent, cint,
      initState, cfgMA, xEv, synEv, Function.update, EV_ABS, EV_SYN, EV_KEY,
      SYN_REPORT, ABS_X, ABS_Y, ABS_PRESSURE, ABS_TILT_X, ABS_TILT_Y, BTN_TOOL_PEN,
      MAX_HISTORY, List.get?]

/-- C2: for every read result, the hook returns the underlying read's count
unchanged, leaves the trailing partial bytes untouched, keeps the record
count, and per record keeps type, code and timestamp, changing at most the
value of an ABS_X / ABS_Y / (ABS_PRESSURE when smoothing) record; the model
is a total function, so ragged reads cannot crash it. -/
theorem read_shape_invariance (cfg : Config) (s : FilterState) (fd pen_fd : ℤ)
    (active : Bool) (ret : ℤ) (b : EventBuffer) :
    (read_call cfg s fd pen_fd active ret b).1 = ret
    ∧ (read_call cfg s fd pen_fd active ret b).2.1.trail = b.trail
    ∧ (read_call cfg s fd pen_fd active ret b).2.1.events.length = b.events.length
    ∧ List.Forall₂ (evShape cfg.pressure_smoothing) b.events
        (read_call cfg s fd pen_fd active ret b).2.1.events := by
  rw [read_call]
  by_cases h : ret ≤ 0 ∨ fd ≠ pen_fd ∨ active = false ∨ cfg.algorithm = Algorithm.ALG_OFF
  · rw [if_pos h]
    exact ⟨rfl, rfl, rfl, List.forall₂_same.mpr fun e _ => evShape_refl _ e⟩
  · rw [if_neg h]
    have hs := runAux_shape cfg b.events.length 0 (b.events, s)
    exact ⟨rfl, rfl, (List.Forall₂.length_eq hs).symm, hs⟩

/-- C3: one string-pull update from any state (the anchor seeding to the raw
position included) leaves the anchor within the string length L of the raw
position; when the pre-update distance exceeds L the post-update distance is
exactly L and the anchor moved by exactly the excess; when it is at most L
the anchor does not move. -/
theorem string_pull_bound (cfg : Config) (s : FilterState) (rx ry : ℝ)
    (hL : 0 ≤ cfg.string_length) :
    rawDist ((string_pull_filter cfg s rx ry).1.1) ((string_pull_filter cfg s rx ry).1.2)
        rx ry ≤ cfg.string_length
    ∧ (cfg.string_length
          < rawDist (string_seed s rx ry).string_x (string_seed s rx ry).string_y rx ry →
        rawDist ((string_pull_filter cfg s rx ry).1.1)
            ((string_pull_filter cfg s rx ry).1.2) rx ry = cfg.string_length
        ∧ rawDist (string_seed s rx ry).string_x (string_seed s rx ry).string_y
              ((string_pull_filter cfg s rx ry).1.1) ((string_pull_filter cfg s rx ry).1.2)
            = rawDist (string_seed s rx ry).string_x (string_seed s rx ry).string_y rx ry
                - cfg.string_length)
    ∧ (rawDist (string_seed s rx ry).string_x (string_seed s rx ry).string_y rx ry
          ≤ cfg.string_length →
        (string_pull_filter cfg s rx ry).1.1 = (string_seed s rx ry).string_x
        ∧ (string_pull_filter cfg s rx ry).1.2 = (string_seed s rx ry).string_y) := by
  set L := cfg.string_length with hLdef
  set s0 := string_seed s rx ry with hs0
  set dx := rx - s0.string_x with hdx
  set dy := ry - s0.string_y with hdy
  set dist := Real.sqrt (dx * dx + dy * dy) with hdist
  have hdist0 : 0 ≤ dist := Real.sqrt_nonneg _
  have hpre : rawDist s0.string_x s0.string_y rx ry = dist := by
    rw [rawDist]
  by_cases hcase : L < dist
  · have hdpos : 0 < dist := lt_of_le_of_lt hL hcase
    have hdne : dist ≠ 0 := ne_of_gt hdpos
    have hout : (string_pull_filter cfg s rx ry).1
        = (s0.string_x + dx * ((dist - L) / dist), s0.string_y + dy * ((dist - L) / dist)) := by
      rw [string_pull_filter]
      simp only [← hs0, ← hdx, ← hdy, ← hdist, ← hLdef, if_pos hcase]
    have hpost : rawDist (s0.string_x + dx * ((dist - L) / dist))
        (s0.string_y + dy * ((dist - L) / dist)) rx ry = L := by
      rw [rawDist]
      have e1 : rx - (s0.string_x + dx * ((dist - L) / dist)) = dx * (L / dist) := by
        rw [hdx]; field_simp; ring
      have e2 : ry - (s0.string_y + dy * ((dist - L) / dist)) = dy * (L / dist) := by
        rw [hdy]; field_simp; ring
      rw [e1, e2, sqrt_scale _ _ _ (by positivity), ← hdist]
      field_simp
    have hmove : rawDist s0.string_x s0.string_y
        (s0.string_x + dx * ((dist - L) / dist)) (s0.string_y + dy * ((dist - L) / dist))
          = dist - L := by
      rw [rawDist]
      have e1 : s0.string_x + dx * ((dist - L) / dist) - s0.string_x
          = dx * ((dist - L) / dist) := by ring
      have e2 : s0.string_y + dy * ((dist - L) / dist) - s0.string_y
          = dy * ((dist - L) / dist) := by ring
      have hq : 0 ≤ (dist - L) / dist := by
        apply div_nonneg (by linarith) (le_of_lt hdpos)
      rw [e1, e2, sqrt_scale _ _ _ hq, ← hdist]
      field_simp
    refine ⟨?_, fun _ => ⟨?_, ?_⟩, fun hle => absurd hcase (not_lt.mpr (hpre ▸ hle))⟩
    · rw [show ((string_pull_filter cfg s rx ry).1.1)
            = (s0.string_x + dx * ((dist - L) / dist)) by rw [hout],
        show ((string_pull_filter cfg s rx ry).1.2)
            = (s0.string_y + dy * ((dist - L) / dist)) by rw [hout],
        hpost]
    · rw [show ((string_pull_filter cfg s rx ry).1.1)
            = (s0.string_x + dx * ((dist - L) / dist)) by rw [hout],
        show ((string_pull_filter cfg s rx ry).1.2)
            = (s0.string_y + dy * ((dist - L) / dist)) by rw [hout],
        hpost]
    · rw [show ((string_pull_filter cfg s rx ry).1.1)
            = (s0.string_x + dx * ((dist - L) / dist)) by rw [hout],
        show ((string_pull_filter cfg s rx ry).1.2)
            = (s0.string_y + dy * ((dist - L) / dist)) by rw [hout],
        hmove, hpre]
  · have hout : (string_pull_filter cfg s rx ry).1 = (s0.string_x, s0.string_y) := by
      rw [string_pull_filter]
      simp only [← hs0, ← hdx, ← hdy, ← hdist, ← hLdef, if_neg hcase]
    have h1 : (string_pull_filter cfg s rx ry).1.1 = s0.string_x := by rw [hout]
    have h2 : (string_pull_filter cfg s rx ry).1.2 = s0.string_y := by rw [hout]
    refine ⟨?_, fun hgt => absurd hgt hcase, fun _ => ⟨h1, h2⟩⟩
    rw [h1, h2, hpre]
    exact not_lt.mp hcase

/-- C3 witness: the bound instantiated at the derived strength-0.5
configuration (string length 550), an anchored state at (0,0), and the raw
position (1000, 0). -/
theorem string_pull_bound_witness :
    0 ≤ cfgSP.string_length
    ∧ (rawDist ((string_pull_filter cfgSP { initState with string_init := true } 1000 0).1.1)
          ((string_pull_filter cfgSP { initState with string_init := true } 1000 0).1.2)
          1000 0 ≤ cfgSP.string_length
      ∧ (cfgSP.string_length
            < rawDist (string_seed { initState with string_init := true } 1000 0).string_x
                (string_seed { initState with string_init := true } 1000 0).string_y 1000 0 →
          rawDist ((string_pull_filter cfgSP { initState with string_init := true } 1000 0).1.1)
              ((string_pull_filter cfgSP { initState with string_init := true } 1000 0).1.2)
              1000 0 = cfgSP.string_length
          ∧ rawDist (string_seed { initState with string_init := true } 1000 0).string_x
                (string_seed { initState with string_init := true } 1000 0).string_y
                ((string_pull_filter cfgSP { initState with string_init := true } 1000 0).1.1)
                ((string_pull_filter cfgSP { initState with string_init := true } 1000 0).1.2)
              = rawDist (string_seed { initState with string_init := true } 1000 0).string_x
                  (string_seed { initState with string_init := true } 1000 0).string_y 1000 0
                  - cfgSP.string_length)
      ∧ (rawDist (string_seed { initState with string_init := true } 1000 0).string_x
            (string_seed { initState with string_init := true } 1000 0).string_y 1000 0
            ≤ cfgSP.string_length →
          (string_pull_filter cfgSP { initState with string_init := true } 1000 0).1.1
              = (string_seed { initState with string_init := true } 1000 0).string_x
          ∧ (string_pull_filter cfgSP { initState with string_init := true } 1000 0).1.2
              = (string_seed { initState with string_init := true } 1000 0).string_y)) :=
  ⟨by norm_num [cfgSP, derive_params],
   string_pull_bound cfgSP { initState with string_init := true } 1000 0
     (by norm_num [cfgSP, derive_params])⟩

/-- C4: with algorithm string_pull and strength 0.5 the derived string length
is 550; a fresh stroke at (0,0) outputs (0,0), feeding (1000,0) moves the
output to (450,0), and feeding (1000,0) again leaves it at (450,0). -/
theorem string_pull_scenario :
    cfgSP.string_length = 550
    ∧ (string_pull_filter cfgSP initState 0 0).1 = (0, 0)
    ∧ (string_pull_filter cfgSP (string_pull_filter cfgSP initState 0 0).2 1000 0).1
      = (450, 0)
    ∧ (string_pull_filter cfgSP
        (string_pull_filter cfgSP (string_pull_filter cfgSP initState 0 0).2 1000 0).2
        1000 0).1 = (450, 0) := by
  have hL : cfgSP.string_length = 550 := by norm_num [cfgSP, derive_params]
  have h1 : (string_pull_filter cfgSP initState 0 0)
      = ((0, 0), { initState with string_init := true }) := by
    rw [string_pull_filter, string_seed]
    norm_num [initState, hL, Real.sqrt_zero]
  have h2 : (string_pull_filter cfgSP { initState with string_init := true } 1000 0)
      = ((450, 0), { initState with string_init := true, string_x := 450 }) := by
    rw [string_pull_filter, string_seed]
    have hs : Real.sqrt (1000000 : ℝ) = 1000 := by
      rw [show (1000000 : ℝ) = 1000 ^ 2 by norm_num, Real.sqrt_sq (by norm_num)]
    norm_num [initState, hL, hs]
  have h3 : (string_pull_filter cfgSP
      { initState with string_init := true, string_x := 450 } 1000 0)
      = ((450, 0), { initState with string_init := true, string_x := 450 }) := by
    rw [string_pull_filter, string_seed]
    have hs : Real.sqrt (302500 : ℝ) = 550 := by
      rw [show (302500 : ℝ) = 550 ^ 2 by norm_num, Real.sqrt_sq (by norm_num)]
    norm_num [initState, hL, hs]
  refine ⟨hL, ?_, ?_, ?_⟩
  · rw [h1]
  · rw [h1, h2]
  · rw [h1, h2, h3]

/-- C5 counterexample: with moving_avg at strength 0 (window 4), the fifth
output for the raw x sequence 0,10,20,30,40 is 25 — the mean of the last four
samples 10,20,30,40 — strictly above the 20 the claim states. -/
theorem moving_avg_fifth_output_not_twenty :
    ((mavgOutputs cfgMA0 [0, 10, 20, 30, 40] initState).map Prod.fst).get? 4 = some 25
    ∧ (20 : ℝ) < 25 := by
  constructor
  · norm_num [mavgOutputs, mavgStep, history_push, moving_avg_filter, mavgSum,
      cfgMA0, derive_params, cint, initState, Function.update, MAX_HISTORY,
      show Int.toNat 4 = 4 from rfl, List.get?]
  · norm_num

/-- C5 as amended: with moving_avg and strength 0 the derived window is 4,
and the raw x sequence 0,10,20,30,40 yields filtered outputs 0, 5, 10, 15, 25
(each the mean of the last min(window, history) samples). -/
theorem moving_avg_scenario_outputs :
    cfgMA0.moving_avg_window = 4
    ∧ (mavgOutputs cfgMA0 [0, 10, 20, 30, 40] initState).map Prod.fst
      = [0, 5, 10, 15, 25] := by
  constructor
  · norm_num [cfgMA0, derive_params, cint]
  · norm_num [mavgOutputs, mavgStep, history_push, moving_avg_filter, mavgSum,
      cfgMA0, derive_params, cint, initState, Function.update, MAX_HISTORY,
      show Int.toNat 4 = 4 from rfl]

/-- C6 counterexample: at strength 0.1 the derived window is 4 + floor(2.8)
= 6, strictly below the 4 + round(2.8) = 7 the claim states. -/
theorem mavg_window_not_round :
    (derive_params { strength := (1:ℝ)/10 }).moving_avg_window = 6
    ∧ 4 + round ((1:ℝ)/10 * 28) = 7
    ∧ (derive_params { strength := (1:ℝ)/10 }).moving_avg_window
        < 4 + round ((1:ℝ)/10 * 28) := by
  have ha : (derive_params { strength := (1:ℝ)/10 }).moving_avg_window = 6 := by
    norm_num [derive_params, cint]
  have hb : 4 + round ((1:ℝ)/10 * 28) = 7 := by
    norm_num [round_eq]
  exact ⟨ha, hb, by rw [ha, hb]; norm_num⟩

/-- C6 as amended: for every strength in [0,1] the derived moving-average
window is 4 + floor(strength * 28), which lies between 4 and 32. -/
theorem mavg_window_floor (c : Config) (h0 : 0 ≤ c.strength) (h1 : c.strength ≤ 1) :
    (derive_params c).moving_avg_window = 4 + ⌊c.strength * 28⌋
    ∧ 4 ≤ (derive_params c).moving_avg_window
    ∧ (derive_params c).moving_avg_window ≤ 32 := by
  have hfl : (derive_params c).moving_avg_window = 4 + ⌊c.strength * 28⌋ := by
    rw [derive_params]
    simp only [cint, if_pos (by positivity : (0:ℝ) ≤ c.strength * 28)]
  refine ⟨hfl, ?_, ?_⟩
  · rw [hfl]
    have : (0:ℤ) ≤ ⌊c.strength * 28⌋ := Int.floor_nonneg.mpr (by positivity)
    omega
  · rw [hfl]
    have h28 : ⌊c.strength * 28⌋ ≤ ⌊(28:ℝ)⌋ := Int.floor_le_floor (by nlinarith)
    have : (⌊(28:ℝ)⌋ : ℤ) = 28 := by norm_num
    omega

/-- C6 witness: the floor formula instantiated at strength 0.5, giving
window 18 within [4, 32]. -/
theorem mavg_window_floor_witness :
    0 ≤ ({ strength := (1:ℝ)/2 } : Config).strength
    ∧ ({ strength := (1:ℝ)/2 } : Config).strength ≤ 1
    ∧ ((derive_params { strength := (1:ℝ)/2 }).moving_avg_window
        = 4 + ⌊({ strength := (1:ℝ)/2 } : Config).strength * 28⌋
      ∧ 4 ≤ (derive_params { strength := (1:ℝ)/2 }).moving_avg_window
      ∧ (derive_params { strength := (1:ℝ)/2 }).moving_avg_window ≤ 32) :=
  ⟨by norm_num, by norm_num,
   mavg_window_floor { strength := (1:ℝ)/2 } (by norm_num) (by norm_num)⟩

/-- C7: after a stroke reset, the first subsequent position sample — pushed
into the cleared history and run through any of the five algorithms — comes
out exactly equal to the raw sample. -/
theorem reset_first_sample (cfg : Config) (s : FilterState) (rx ry rp tx ty ts : ℝ)
    (hL : 0 ≤ cfg.string_length) :
    ((apply_filter cfg (history_push (history_clear s) rx ry rp tx ty) rx ry rp ts).1.1 = rx
    ∧ (apply_filter cfg (history_push (history_clear s) rx ry rp tx ty) rx ry rp ts).1.2.1
      = ry) := by
  set s1 := history_push (history_clear s) rx ry rp tx ty with hs1
  have hcount : s1.hist_count = 1 := by
    simp [hs1, history_push, history_clear, MAX_HISTORY]
  have hhead : s1.hist_head = 1 := by
    simp [hs1, history_push, history_clear, MAX_HISTORY]
  have hpt : s1.history 1 = { x := rx, y := ry, pressure := rp, tilt_x := tx,
                              tilt_y := ty, distance := 0 } := by
    simp [hs1, history_push, history_clear, MAX_HISTORY, Function.update]
  have hsinit : s1.string_init = false := by
    simp [hs1, history_push, history_clear]
  have hoeinit : s1.oe_init = false := by
    simp [hs1, history_push, history_clear]
  rw [apply_filter]
  cases cfg.algorithm with
  | ALG_MOVING_AVG =>
    simp only
    rw [moving_avg_filter]
    have hn : min s1.hist_count (if cfg.moving_avg_window < 1 then 1
        else cfg.moving_avg_window).toNat = 1 := by
      rw [hcount]
      by_cases h : cfg.moving_avg_window < 1
      · simp [h]
      · simp only [if_neg h]
        omega
    simp only [hn, hhead]
    norm_num [mavgSum, hpt]
  | ALG_GAUSSIAN_AVG =>
    simp only
    rw [gaussian_smooth, if_pos (Or.inr (by rw [hcount]; norm_num))]
    exact ⟨rfl, rfl⟩
  | ALG_STRING_PULL =>
    simp only
    have hnl : ¬ (cfg.string_length < 0) := not_lt.mpr hL
    have hseed : string_seed s1 rx ry
        = { s1 with string_x := rx, string_y := ry, string_init := true } := by
      rw [string_seed, if_neg (by simp [hsinit])]
    rw [string_pull_filter, hseed]
    norm_num [hnl]
  | ALG_ONE_EURO =>
    simp only
    rw [one_euro_filter, if_pos (by simp [hoeinit])]
    exact ⟨rfl, rfl⟩
  | ALG_OFF =>
    exact ⟨rfl, rfl⟩

/-- C7 witness: the post-reset identity at the derived strength-0.5
string-pull configuration, an arbitrary prior state, and the raw sample
(7, 8) with pressure 9. -/
theorem reset_first_sample_witness :
    0 ≤ cfgSP.string_length
    ∧ ((apply_filter cfgSP (history_push (history_clear initState) 7 8 9 0 0) 7 8 9 0).1.1 = 7
    ∧ (apply_filter cfgSP (history_push (history_clear initState) 7 8 9 0 0) 7 8 9 0).1.2.1
      = 8) :=
  ⟨by norm_num [cfgSP, derive_params],
   reset_first_sample cfgSP initState 7 8 9 0 0 0 (by norm_num [cfgSP, derive_params])⟩

/-- C8: with the algorithm off, the read hook returns the read result —
return value, records and trailing bytes — untouched, and the filter state
unchanged (no processing). -/
theorem off_identity (cfg : Config) (s : FilterState) (fd pen_fd : ℤ) (active : Bool)
    (ret : ℤ) (b : EventBuffer) (h : cfg.algorithm = Algorithm.ALG_OFF) :
    read_call cfg s fd pen_fd active ret b = (ret, b, s) := by
  rw [read_call, if_pos (Or.inr (Or.inr (Or.inr h)))]

/-- C8 witness: the off identity at a concrete buffer with one record and a
trailing byte. -/
theorem off_identity_witness :
    cfgOff.algorithm = Algorithm.ALG_OFF
    ∧ read_call cfgOff initState 3 3 true 24 bufW = (24, bufW, initState) :=
  ⟨rfl, off_identity cfgOff initState 3 3 true 24 bufW rfl⟩

/-- C9: configuration loading cannot fail: a missing file yields the derived
defaults (string_pull, strength 0.5, both smoothing flags false); the loaded
strength always lies in [0,1]; a line with an unrecognised key, or an
algorithm line with an unrecognised name, changes nothing; and the derived
tunables of the final configuration always satisfy the derivation formulas
at the final strength. -/
theorem load_config_robust (atof : String → ℝ) (file : Option (List (String × String)))
    (key val : String) (c : Config) :
    load_config atof none = derive_params {}
    ∧ (load_config atof none).algorithm = Algorithm.ALG_STRING_PULL
    ∧ (load_config atof none).strength = 0.5
    ∧ (load_config atof none).pressure_smoothing = false
    ∧ (load_config atof none).tilt_smoothing = false
    ∧ (0 ≤ (load_config atof file).strength ∧ (load_config atof file).strength ≤ 1)
    ∧ (apply_line atof c (key, val) = c
        ∨ key ∈ (["algorithm", "strength", "pressure_smoothing",
            "tilt_smoothing"] : List String))
    ∧ (apply_line atof c ("algorithm", val) = c
        ∨ val ∈ (["off", "moving_avg", "gaussian", "string_pull",
            "one_euro"] : List String))
    ∧ (load_config atof file).moving_avg_window
        = 4 + cint ((load_config atof file).strength * 28)
    ∧ (load_config atof file).gaussian_sigma = 50 + (load_config atof file).strength * 450
    ∧ (load_config atof file).string_length = 100 + (load_config atof file).strength * 900
    ∧ (load_config atof file).one_euro_mincutoff
        = 1.5 - (load_config atof file).strength * 1.3
    ∧ (load_config atof file).one_euro_beta
        = 0.001 + (load_config atof file).strength * 0.01 := by
  have hder : ∀ d : Config, (derive_params d).moving_avg_window
        = 4 + cint ((derive_params d).strength * 28)
      ∧ (derive_params d).gaussian_sigma = 50 + (derive_params d).strength * 450
      ∧ (derive_params d).string_length = 100 + (derive_params d).strength * 900
      ∧ (derive_params d).one_euro_mincutoff = 1.5 - (derive_params d).strength * 1.3
      ∧ (derive_params d).one_euro_beta = 0.001 + (derive_params d).strength * 0.01 := by
    intro d
    refine ⟨rfl, by norm_num [derive_params], by norm_num [derive_params],
      by norm_num [derive_params], by norm_num [derive_params]⟩
  have hload : ∀ f : Option (List (String × String)),
      ∃ d, load_config atof f = derive_params d := by
    intro f
    cases f with
    | none => exact ⟨{}, rfl⟩
    | some lines => exact ⟨_, rfl⟩
  obtain ⟨d, hd⟩ := hload file
  refine ⟨rfl, rfl, by norm_num [load_config, derive_params], rfl, rfl,
    load_config_strength_bound atof file, ?_, ?_, ?_, ?_, ?_, ?_, ?_⟩
  · by_cases hk : key ∈ (["algorithm", "strength", "pressure_smoothing",
        "tilt_smoothing"] : List String)
    · exact Or.inr hk
    · refine Or.inl ?_
      rw [apply_line]
      simp only [List.mem_cons, List.mem_singleton] at hk
      push_neg at hk
      rw [if_neg hk.1, if_neg hk.2.1, if_neg hk.2.2.1, if_neg hk.2.2.2.1]
  · by_cases hv : val ∈ (["off", "moving_avg", "gaussian", "string_pull",
        "one_euro"] : List String)
    · exact Or.inr hv
    · refine Or.inl ?_
      rw [apply_line]
      simp only [List.mem_cons, List.mem_singleton] at hv
      push_neg at hv
      rw [if_pos rfl, if_neg hv.1, if_neg hv.2.1, if_neg hv.2.2.1, if_neg hv.2.2.2.1,
        if_neg hv.2.2.2.2.1]
  · rw [hd]; exact (hder d).1
  · rw [hd]; exact (hder d).2.1
  · rw [hd]; exact (hder d).2.2.1
  · rw [hd]; exact (hder d).2.2.2.1
  · rw [hd]; exact (hder d).2.2.2.2

/-- C10: evaluation at a concrete batch holding a lift report followed by a
normal report. Alone, the lift report (X=5, pressure 0 below the threshold,
SYN) passes through raw, as the claim states. But in the two-report batch the
second report's write-back scans past the report boundary back to index 0 and
overwrites the lift report's X with 1000, so the lift report's position value
is not returned to the caller unmodified. -/
theorem lift_report_value_overwritten :
    (read_events cfgMA [xEv 5, pEv 0, synEv] initState).1 = [xEv 5, pEv 0, synEv]
    ∧ (read_events cfgMA [xEv 5, pEv 0, synEv, xEv 1000, pEv 100, synEv] initState).1
      = [xEv 1000, pEv 0, synEv, xEv 1000, pEv 100, synEv] := by
  constructor
  · norm_num [read_events, runAux, stepEvent, accumEvent, history_push, history_clear,
      apply_filter, moving_avg_filter, mavgSum, writeBack, writeBackEvent, cint,
      initState, cfgMA, xEv, synEv, pEv, Function.update, EV_ABS, EV_SYN, EV_KEY,
      SYN_REPORT, ABS_X, ABS_Y, ABS_PRESSURE, ABS_TILT_X, ABS_TILT_Y, BTN_TOOL_PEN,
      MAX_HISTORY, List.get?]
  · norm_num [read_events, runAux, stepEvent, accumEvent, history_push, history_clear,
      apply_filter, moving_avg_filter, mavgSum, writeBack, writeBackEvent, cint,
      initState, cfgMA, xEv, synEv, pEv, Function.update, EV_ABS, EV_SYN, EV_KEY,
      SYN_REPORT, ABS_X, ABS_Y, ABS_PRESSURE, ABS_TILT_X, ABS_TILT_Y, BTN_TOOL_PEN,
      MAX_HISTORY, List.get?]

end Stabilizer
